import Mathlib

/-!
Verification of the oobleck pipeline-parallel training executor.

This file gives a shallow embedding, in Lean 4, of the core of the
`insujang/oobleck` repository:

* `oobleck/execution/pipeline.py` — the 1F1B pipeline schedule
  (`OobleckPipelineSchedule`), the typed P2P transport
  (`PipelineCommunication`), the stage runtime (`PipelineExecution`) and
  the pipeline driver (`OobleckPipeline`);
* `oobleck/engine/execution_engine.py` — the top-level driver
  (`ExecutionEngine`) with its failure watcher and reconfiguration flag.

Pure functions of the Python source are translated to Lean functions;
stateful methods are translated to explicit state-passing functions;
Python assertions and exceptions are translated to `Option`/`Except`
results.  Machine integers are modelled as `Nat`/`Int` (Python integers
are unbounded, so no overflow modelling is needed).  Blocking P2P
operations are modelled by explicit message lists (the wire).

Theorems about the embedding settle the testable properties of the
specification.
-/

namespace Oobleck

/-! ## Execution engine (`oobleck/engine/execution_engine.py`)

`ExecutionEngine` keeps a reconfiguration flag (`need_reconfiguration`)
and, through `execute`, an `invalidated` attribute on the dataloader
iterator.  We model exactly this state. -/

/-- The mutable state of `ExecutionEngine` relevant to error handling and
reconfiguration: the `need_reconfiguration` flag set by the failure
watcher, and the `invalidated` attribute that `execute` sets on the
dataloader iterator after a communicator teardown. -/
structure EngineState where
  need_reconfiguration : Bool
  iterator_invalidated : Bool
deriving DecidableEq, Repr

/-- Python `str.startswith`, evaluated on the underlying character lists. -/
def charsStartWith : List Char → List Char → Bool
  | [], _ => true
  | _ :: _, [] => false
  | p :: ps, c :: cs => p == c && charsStartWith ps cs

/-- `s.startswith(pat)` from the Python source. -/
def py_startswith (s pat : String) : Bool :=
  charsStartWith pat.data s.data

/-- The error classifier of `ExecutionEngine.execute` (lines 236-239):
an exception is recoverable iff its message starts with
`"Default process group"` or `"Connection closed"`. -/
def isRecoverableError (msg : String) : Bool :=
  py_startswith msg "Default process group" || py_startswith msg "Connection closed"

/-- `ExecutionEngine.execute` (lines 192-245), modelled as a function of
the engine state and of the outcome `run` of
`booster.execute_pipeline` (`Except.error msg` models an exception with
message `msg` raised during the pipeline run).  Returns the new state
and either an uncaught exception or an optional result (`none` models
Python `None`).  The thread spawning (lines 213-222) has no effect on
this state and is not modelled; the wait loop of lines 202-204 only
delays the `None` return. -/
def execute {α : Type} (st : EngineState) (run : Except String α) :
    EngineState × Except String (Option α) :=
  if st.need_reconfiguration then
    (st, .ok none)
  else if st.iterator_invalidated then
    (st, .error "The dataloader iterator has been invalidated. Please recreate the iterator before resuming training.")
  else
    match run with
    | .ok r => (st, .ok (some r))
    | .error e =>
      if isRecoverableError e then
        ({ st with iterator_invalidated := true }, .ok none)
      else
        (st, .error e)

/-- `ExecutionEngine.notification_receive_func` (lines 170-176): the
failure watcher blocks on the reconfiguration notification and then sets
`need_reconfiguration` (the communicator shutdown in
`on_receive_reconfiguration_notifiation` does not touch this state). -/
def notification_receive_func (st : EngineState) : EngineState :=
  { st with need_reconfiguration := true }

/-- `ExecutionEngine.reconfigure` (lines 247-255): delegates to the
plugin and clears `need_reconfiguration`. -/
def reconfigure (st : EngineState) : EngineState :=
  { st with need_reconfiguration := false }

/-- Claim C5: `ExecutionEngine.execute` recovers an exception raised
during the pipeline run if and only if the exception's message starts
with `"Default process group"` or `"Connection closed"`: in that case it
sets the invalidated flag on the dataloader iterator and returns `None`
(no result); every other exception propagates to the caller
unchanged. -/
theorem C5_execute_recovers_iff {α : Type} (st : EngineState) (msg : String)
    (h1 : st.need_reconfiguration = false) (h2 : st.iterator_invalidated = false) :
    (execute (α := α) st (.error msg)
        = ({ st with iterator_invalidated := true }, .ok none)
      ↔ (py_startswith msg "Default process group" = true
          ∨ py_startswith msg "Connection closed" = true))
    ∧ (¬(py_startswith msg "Default process group" = true
          ∨ py_startswith msg "Connection closed" = true) →
        execute (α := α) st (.error msg) = (st, .error msg)) := by
  have hcl : isRecoverableError msg = true
      ↔ (py_startswith msg "Default process group" = true
          ∨ py_startswith msg "Connection closed" = true) := by
    simp [isRecoverableError]
  unfold execute
  rw [h1, h2]
  simp only [Bool.false_eq_true, if_false]
  constructor
  · constructor
    · intro heq
      by_cases hrec : isRecoverableError msg = true
      · exact hcl.mp hrec
      · rw [if_neg hrec] at heq
        exact absurd (congrArg (·.2) heq) (by simp)
    · intro hpre
      rw [if_pos (hcl.mpr hpre)]
  · intro hpre
    rw [if_neg (fun hrec => hpre (hcl.mp hrec))]

/-- Witness for C5 at a concrete state and message. -/
theorem C5_execute_recovers_iff_witness :
    (⟨false, false⟩ : EngineState).need_reconfiguration = false
    ∧ (⟨false, false⟩ : EngineState).iterator_invalidated = false
    ∧ ((execute (α := Unit) ⟨false, false⟩ (.error "Connection closed by peer")
          = (⟨false, true⟩, .ok none)
        ↔ (py_startswith "Connection closed by peer" "Default process group" = true
            ∨ py_startswith "Connection closed by peer" "Connection closed" = true))
      ∧ (¬(py_startswith "Connection closed by peer" "Default process group" = true
            ∨ py_startswith "Connection closed by peer" "Connection closed" = true) →
          execute (α := Unit) ⟨false, false⟩ (.error "Connection closed by peer")
            = (⟨false, false⟩, .error "Connection closed by peer"))) :=
  ⟨rfl, rfl, C5_execute_recovers_iff ⟨false, false⟩ "Connection closed by peer" rfl rfl⟩

/-- Claim C6: after a communicator teardown the dataloader iterator's
invalidated flag is set (by `execute`'s error handler) and
`need_reconfiguration` is set to true (by the watcher in
`notification_receive_func`); while `need_reconfiguration` is true,
`execute` returns `None`; a subsequent call to `reconfigure` sets
`need_reconfiguration` back to false. -/
theorem C6_reconfiguration_lifecycle {α : Type} (st : EngineState) (msg : String)
    (h1 : st.need_reconfiguration = false) (h2 : st.iterator_invalidated = false)
    (hmsg : py_startswith msg "Default process group" = true
        ∨ py_startswith msg "Connection closed" = true) :
    ((execute (α := α) st (.error msg)).1.iterator_invalidated = true)
    ∧ (notification_receive_func (execute (α := α) st (.error msg)).1).need_reconfiguration
        = true
    ∧ (∀ (st3 : EngineState) (run : Except String α),
        st3.need_reconfiguration = true → execute st3 run = (st3, .ok none))
    ∧ (reconfigure
        (notification_receive_func (execute (α := α) st (.error msg)).1)).need_reconfiguration
        = false := by
  have hrec : isRecoverableError msg = true := by
    simp [isRecoverableError]
    rcases hmsg with h | h
    · exact Or.inl h
    · exact Or.inr h
  have hexec : execute (α := α) st (.error msg)
      = ({ st with iterator_invalidated := true }, .ok none) := by
    unfold execute
    rw [h1, h2]
    simp only [Bool.false_eq_true, if_false]
    rw [if_pos hrec]
  refine ⟨by rw [hexec], by rw [hexec]; rfl, ?_, by rw [hexec]; rfl⟩
  intro st3 run h3
  unfold execute
  rw [h3]
  simp

/-- Witness for C6 at a concrete state and message. -/
theorem C6_reconfiguration_lifecycle_witness :
    (⟨false, false⟩ : EngineState).need_reconfiguration = false
    ∧ (py_startswith "Default process group has not been initialized" "Default process group" = true
        ∨ py_startswith "Default process group has not been initialized" "Connection closed" = true)
    ∧ ((execute (α := Unit) ⟨false, false⟩
          (.error "Default process group has not been initialized")).1.iterator_invalidated
        = true) :=
  ⟨rfl, by decide,
    (C6_reconfiguration_lifecycle (α := Unit) ⟨false, false⟩
      "Default process group has not been initialized" rfl rfl (by decide)).1⟩

/-! ## Typed P2P transport (`PipelineCommunication`, pipeline.py lines 284-457)

Tensors are modelled by their attributes relevant to the transport:
shape, dtype, `requires_grad` and the optional `.grad` tensor.  The wire
is a list of messages; each blocking `dist.send`/`dist.recv` moves one
message.  A rank-1 integer tensor on the wire is a `Msg.ints`; a tensor
payload transfer is a `Msg.payload` carrying the payload's metadata. -/

/-- Modelled from the spec: the stable dtype set of §6
(`oobleck.execution.utils.ID_TO_DTYPE` / `DTYPE_TO_ID` is not among the
embedded source files).  The spec requires a compact integer mapping
covering at least {f16, bf16, f32, f64, i8, i16, i32, i64, bool, u8}. -/
inductive DType where
  | f16 | bf16 | f32 | f64 | i8 | i16 | i32 | i64 | bool | u8
deriving DecidableEq, Repr

/-- Modelled from the spec: `ID_TO_DTYPE`, the integer-indexed dtype
table fixed at project version 1. -/
def ID_TO_DTYPE : List DType :=
  [.f16, .bf16, .f32, .f64, .i8, .i16, .i32, .i64, .bool, .u8]

/-- Modelled from the spec: `DTYPE_TO_ID`, the inverse of `ID_TO_DTYPE`
(in the source, `{dtype: id for id, dtype in enumerate(ID_TO_DTYPE)}`). -/
def DTYPE_TO_ID : DType → Nat
  | .f16 => 0
  | .bf16 => 1
  | .f32 => 2
  | .f64 => 3
  | .i8 => 4
  | .i16 => 5
  | .i32 => 6
  | .i64 => 7
  | .bool => 8
  | .u8 => 9

theorem ID_TO_DTYPE_DTYPE_TO_ID (d : DType) : ID_TO_DTYPE.get? (DTYPE_TO_ID d) = some d := by
  cases d <;> rfl

/-- `torch.Tensor.is_floating_point()`. -/
def isFloatingPoint : DType → Bool
  | .f16 | .bf16 | .f32 | .f64 => true
  | _ => false

/-- The attributes of a tensor that the transport's metadata envelope
describes: `tensor.size()`, `tensor.dtype`, `tensor.requires_grad`
(torch sizes are nonnegative; we keep them as `Int` because they travel
the wire as entries of a `LongTensor`). -/
structure TensorMeta where
  shape : List Int
  dtype : DType
  requires_grad : Bool
deriving DecidableEq, Repr

/-- A tensor as seen by the transport and the stage runtime: its
metadata plus its optional `.grad` tensor (described by its own
metadata). -/
structure Tensor where
  shape : List Int
  dtype : DType
  requires_grad : Bool
  grad : Option TensorMeta
deriving DecidableEq, Repr

/-- The metadata of a tensor. -/
def metaOf (t : Tensor) : TensorMeta :=
  ⟨t.shape, t.dtype, t.requires_grad⟩

/-- One message on the P2P wire: either a rank-1 integer tensor
(metadata) or a tensor payload (identified by its metadata). -/
inductive Msg where
  | ints (data : List Int)
  | payload (t : TensorMeta)
deriving DecidableEq, Repr

/-- The per-instance transport state of `PipelineCommunication.__init__`
(pipeline.py lines 294-298): the metadata-sent flag and the two lazily
allocated persistent receive buffers. -/
structure CommState where
  sent_activation_meta : Bool
  activation_recv_buf : Option (List TensorMeta)
  grad_recv_buf : Option (List TensorMeta)
deriving DecidableEq, Repr

/-- The state of a freshly constructed `PipelineCommunication`. -/
def initCommState : CommState := ⟨false, none, none⟩

/-- The four rank-1 integer messages `_send_activation_meta`
(pipeline.py lines 320-350) sends per tensor: `[ndims]`,
`[dtype_code]`, `[shape]`, `[requires_grad]`. -/
def tensor_meta_msgs (t : Tensor) : List Msg :=
  [Msg.ints [(t.shape.length : Int)],
   Msg.ints [(DTYPE_TO_ID t.dtype : Int)],
   Msg.ints t.shape,
   Msg.ints [if t.requires_grad then 1 else 0]]

/-- The full metadata envelope of `_send_activation_meta`: the
`[num_tensors]` message followed by the four messages of each tensor. -/
def send_activation_meta (buffer : List Tensor) : List Msg :=
  Msg.ints [(buffer.length : Int)] :: buffer.flatMap tensor_meta_msgs

/-- `send_activations` (pipeline.py lines 318-360): on the first call
(per `PipelineCommunication` instance) transmit the metadata envelope
for `outputs = pipe_buffers["outputs"][buffer_id]` and set
`sent_activation_meta`; then transmit every tensor of the tuple.  The
lookup of `outputs` by `buffer_id` is abstracted by passing the tuple
itself. -/
def send_activations (st : CommState) (outputs : List Tensor) :
    List Msg × CommState :=
  let meta := if st.sent_activation_meta then [] else send_activation_meta outputs
  (meta ++ outputs.map (fun t => Msg.payload (metaOf t)),
   { st with sent_activation_meta := true })

/-- `dist.recv` into a fresh rank-1 `LongTensor` of size 1 (the
`count_tensor` / `recv_ndims` / `recv_dtype` / `recv_req_grad`
receives): consumes one integer message of size 1. -/
def readScalar : List Msg → Option (Int × List Msg)
  | Msg.ints [x] :: rest => some (x, rest)
  | _ => none

/-- `dist.recv` into a fresh rank-1 `LongTensor` of size `n` (the
`recv_shape` receive): consumes one integer message, which must have
exactly `n` entries to fit the buffer. -/
def readVec (n : Nat) : List Msg → Option (List Int × List Msg)
  | Msg.ints d :: rest => if d.length = n then some (d, rest) else none
  | _ => none

/-- The per-tensor body of `create_receive_buffer` (pipeline.py lines
379-403): receive `[ndims]`, `[dtype_code]` (looked up in
`ID_TO_DTYPE`; a code outside the table is an error), the shape vector
of size `ndims` (Python builds `[1] * recv_ndims` entries, so a
negative `ndims` behaves like 0, as does `Int.toNat`), and
`[requires_grad]` (compared with 1), then allocate
`torch.zeros(shape, dtype, requires_grad)`. -/
def read_tensor_meta (w : List Msg) : Option (TensorMeta × List Msg) := do
  let (ndims, w) ← readScalar w
  let (dtypeId, w) ← readScalar w
  let dtype ← if 0 ≤ dtypeId then ID_TO_DTYPE.get? dtypeId.toNat else none
  let (shape, w) ← readVec ndims.toNat w
  let (rg, w) ← readScalar w
  some (⟨shape, dtype, rg == 1⟩, w)

/-- `for _ in range(num_tensors)` around `read_tensor_meta`. -/
def read_tensor_metas : Nat → List Msg → Option (List TensorMeta × List Msg)
  | 0, w => some ([], w)
  | n + 1, w => do
    let (t, w) ← read_tensor_meta w
    let (ts, w) ← read_tensor_metas n w
    some (t :: ts, w)

/-- `create_receive_buffer` (pipeline.py lines 364-404): receive the
`[num_tensors]` message, then allocate one buffer per announced tensor
(`range` of a negative count is empty, matching `Int.toNat`). -/
def create_receive_buffer (w : List Msg) : Option (List TensorMeta × List Msg) := do
  let (count, w) ← readScalar w
  read_tensor_metas count.toNat w

/-- The receive loop of `recv_activations` (pipeline.py lines 410-415):
receive one payload into each persistent buffer in order (a payload
whose shape or dtype disagrees with the buffer is a fatal protocol
break), then clone/detach it and restore the buffer's
`requires_grad`. -/
def recv_payloads : List TensorMeta → List Msg → Option (List TensorMeta × List Msg)
  | [], w => some ([], w)
  | b :: bs, Msg.payload t :: w =>
    if t.shape = b.shape ∧ t.dtype = b.dtype then
      (recv_payloads bs w).map (fun r => ({ t with requires_grad := b.requires_grad } :: r.1, r.2))
    else
      none
  | _ :: _, _ => none

/-- `recv_activations` (pipeline.py lines 362-417): allocate the
persistent receive buffer from the wire metadata on the first call
only, then receive the payloads and return the received tuple (written
into `pipe_buffers["inputs"][buffer_id]`), the new transport state and
the unconsumed wire. -/
def recv_activations (st : CommState) (w : List Msg) :
    Option (List TensorMeta × CommState × List Msg) := do
  let (buf, w) ←
    match st.activation_recv_buf with
    | none => create_receive_buffer w
    | some b => some (b, w)
  let (recvd, w) ← recv_payloads buf w
  some (recvd, { st with activation_recv_buf := some buf }, w)

/-- `send_gradients` (pipeline.py lines 419-433): walk the `inputs`
tuple in order; entries with `requires_grad == False` must have no
`.grad` and are skipped; entries with `requires_grad == True` must have
a `.grad`, which is transmitted.  A violated assertion is `none`.  (The
clearing of `pipe_buffers["inputs"][buffer_id]` after the loop does not
affect the transmitted sequence.) -/
def send_gradients : List Tensor → Option (List TensorMeta)
  | [] => some []
  | t :: ts =>
    if ¬t.requires_grad then
      match t.grad with
      | some _ => none
      | none => send_gradients ts
    else
      match t.grad with
      | none => none
      | some g => (send_gradients ts).map (g :: ·)

/-- `torch.zeros_like(tensor)`: same shape and dtype, fresh
non-requiring-grad storage. -/
def zeros_like (t : Tensor) : TensorMeta :=
  ⟨t.shape, t.dtype, false⟩

/-- `create_gradients_buffer` (pipeline.py lines 437-447): one
`zeros_like` buffer per tensor with `requires_grad == True`, in tuple
order; nothing for the others. -/
def create_gradients_buffer : List Tensor → List TensorMeta
  | [] => []
  | t :: ts =>
    if t.requires_grad then zeros_like t :: create_gradients_buffer ts
    else create_gradients_buffer ts

theorem read_tensor_meta_msgs (t : Tensor) (rest : List Msg) :
    read_tensor_meta (tensor_meta_msgs t ++ rest) = some (metaOf t, rest) := by
  have hrg : ((if t.requires_grad then (1 : Int) else 0) == 1) = t.requires_grad := by
    cases t.requires_grad <;> rfl
  simp [tensor_meta_msgs, read_tensor_meta, readScalar, readVec, Int.toNat_natCast,
    Int.natCast_nonneg, hrg, metaOf]
  cases t.dtype <;> rfl

theorem read_tensor_metas_envelope (ts : List Tensor) (rest : List Msg) :
    read_tensor_metas ts.length (ts.flatMap tensor_meta_msgs ++ rest)
      = some (ts.map metaOf, rest) := by
  induction ts with
  | nil => rfl
  | cons t ts ih =>
    simp only [List.length_cons, List.flatMap_cons, List.append_assoc, read_tensor_metas,
      read_tensor_meta_msgs, Option.bind_eq_bind, Option.some_bind, ih, List.map_cons]

/-- Claim C3: metadata round-trip.  If the sender transmits the
metadata envelope (one `[num_tensors]` message, then per tensor the
four rank-1 integer messages) via `send_activations` and the receiver
consumes it via `recv_activations`' `create_receive_buffer`, the
receiver allocates a tuple of the same length whose tensors have
identical shape, dtype and `requires_grad` as the sender's tensors, in
the same order — i.e. exactly `outputs.map metaOf` — leaving the
payload messages on the wire. -/
theorem C3_metadata_roundtrip (st : CommState) (outputs : List Tensor) (rest : List Msg)
    (h : st.sent_activation_meta = false) :
    create_receive_buffer ((send_activations st outputs).1 ++ rest)
      = some (outputs.map metaOf,
              outputs.map (fun t => Msg.payload (metaOf t)) ++ rest) := by
  simp only [send_activations, h, Bool.false_eq_true, if_false]
  simp only [create_receive_buffer, send_activation_meta, List.cons_append, List.append_assoc,
    readScalar, Option.bind_eq_bind, Option.some_bind, Int.toNat_natCast]
  exact read_tensor_metas_envelope outputs _

/-- Witness for C3: a two-tensor tuple round-trips. -/
theorem C3_metadata_roundtrip_witness :
    initCommState.sent_activation_meta = false
    ∧ create_receive_buffer
        ((send_activations initCommState
            [⟨[4, 8], .f32, true, none⟩, ⟨[2], .i64, false, none⟩]).1 ++ [])
      = some ([⟨[4, 8], .f32, true⟩, ⟨[2], .i64, false⟩],
              [Msg.payload ⟨[4, 8], .f32, true⟩, Msg.payload ⟨[2], .i64, false⟩] ++ []) :=
  ⟨rfl, C3_metadata_roundtrip initCommState
    [⟨[4, 8], .f32, true, none⟩, ⟨[2], .i64, false, none⟩] [] rfl⟩

theorem send_gradients_eq_filterMap (inputs : List Tensor)
    (hg : ∀ t ∈ inputs, t.grad.isSome = t.requires_grad) :
    send_gradients inputs
      = some (inputs.filterMap (fun t => if t.requires_grad then t.grad else none)) := by
  induction inputs with
  | nil => rfl
  | cons t ts ih =>
    have ht := hg t (List.mem_cons_self t ts)
    have hts := ih (fun u hu => hg u (List.mem_cons_of_mem t hu))
    by_cases hr : t.requires_grad
    · obtain ⟨g, hgEq⟩ : ∃ g, t.grad = some g := by
        rcases hGrad : t.grad with _ | g
        · rw [hGrad] at ht; simp [hr] at ht
        · exact ⟨g, rfl⟩
      simp [send_gradients, hr, hgEq, hts, List.filterMap_cons]
    · have hnone : t.grad = none := by
        rcases hGrad : t.grad with _ | g
        · rfl
        · rw [hGrad] at ht; simp [hr] at ht
      simp [send_gradients, hr, hnone, hts, List.filterMap_cons]

theorem create_gradients_buffer_eq_filter (outputs : List Tensor) :
    create_gradients_buffer outputs
      = (outputs.filter (fun t => t.requires_grad)).map zeros_like := by
  induction outputs with
  | nil => rfl
  | cons t ts ih =>
    by_cases hr : t.requires_grad <;>
      simp [create_gradients_buffer, hr, ih, List.filter_cons]

theorem length_sent_gradients (inputs : List Tensor)
    (hg : ∀ t ∈ inputs, t.grad.isSome = t.requires_grad) :
    (inputs.filterMap (fun t => if t.requires_grad then t.grad else none)).length
      = inputs.countP (fun t => t.requires_grad) := by
  induction inputs with
  | nil => rfl
  | cons t ts ih =>
    have ht := hg t (List.mem_cons_self t ts)
    have hts := ih (fun u hu => hg u (List.mem_cons_of_mem t hu))
    by_cases hr : t.requires_grad
    · obtain ⟨g, hgEq⟩ : ∃ g, t.grad = some g := by
        rcases hGrad : t.grad with _ | g
        · rw [hGrad] at ht; simp [hr] at ht
        · exact ⟨g, rfl⟩
      simp [List.filterMap_cons, hr, hgEq, hts, List.countP_cons]
    · simp [List.filterMap_cons, hr, hts, List.countP_cons]

theorem countP_eq_of_mask_eq (inputs outputs : List Tensor)
    (h : inputs.map (fun t => t.requires_grad) = outputs.map (fun t => t.requires_grad)) :
    inputs.countP (fun t => t.requires_grad) = outputs.countP (fun t => t.requires_grad) := by
  induction inputs generalizing outputs with
  | nil =>
    cases outputs with
    | nil => rfl
    | cons o os => exact absurd h (by simp)
  | cons t ts ih =>
    cases outputs with
    | nil => exact absurd h (by simp)
    | cons o os =>
      simp only [List.map_cons, List.cons.injEq] at h
      simp only [List.countP_cons, h.1, ih os h.2]

/-- Claim C4: gradient filter agreement.  `send_gradients` transmits
exactly the `.grad` tensors of the entries whose `requires_grad` is
true, in tuple order (given the code's own assertions that `.grad` is
present exactly on those entries); `create_gradients_buffer` allocates
exactly one zero buffer per output entry whose `requires_grad` is true,
in tuple order, allocating nothing for the others; hence when the
`requires_grad` masks of the two tuples agree, the transmitted sequence
matches the receiver's allocation filter position by position (equal
lengths, and position `k` of both corresponds to the `k`-th
`requires_grad` entry). -/
theorem C4_gradient_filter (inputs outputs : List Tensor)
    (hg : ∀ t ∈ inputs, t.grad.isSome = t.requires_grad) :
    send_gradients inputs
        = some (inputs.filterMap (fun t => if t.requires_grad then t.grad else none))
    ∧ create_gradients_buffer outputs
        = (outputs.filter (fun t => t.requires_grad)).map zeros_like
    ∧ (inputs.map (fun t => t.requires_grad) = outputs.map (fun t => t.requires_grad) →
        (inputs.filterMap (fun t => if t.requires_grad then t.grad else none)).length
          = (create_gradients_buffer outputs).length) := by
  refine ⟨send_gradients_eq_filterMap inputs hg,
          create_gradients_buffer_eq_filter outputs, ?_⟩
  intro hmask
  rw [length_sent_gradients inputs hg, create_gradients_buffer_eq_filter,
    List.length_map, ← List.countP_eq_length_filter]
  exact countP_eq_of_mask_eq inputs outputs hmask

/-- Witness for C4: one entry with `requires_grad = false` is skipped by
the sender and gets no receive buffer. -/
theorem C4_gradient_filter_witness :
    (∀ t ∈ ([⟨[2], .f32, true, some ⟨[2], .f32, false⟩⟩,
             ⟨[3], .i64, false, none⟩] : List Tensor),
        t.grad.isSome = t.requires_grad)
    ∧ send_gradients
        [⟨[2], .f32, true, some ⟨[2], .f32, false⟩⟩, ⟨[3], .i64, false, none⟩]
      = some (([⟨[2], .f32, true, some ⟨[2], .f32, false⟩⟩,
                ⟨[3], .i64, false, none⟩] : List Tensor).filterMap
                (fun t => if t.requires_grad then t.grad else none)) :=
  ⟨by decide,
   (C4_gradient_filter
      [⟨[2], .f32, true, some ⟨[2], .f32, false⟩⟩, ⟨[3], .i64, false, none⟩]
      [⟨[2], .f32, true, none⟩, ⟨[3], .i64, false, none⟩] (by decide)).1⟩

/-- A sequence of `send_activations` calls on one
`PipelineCommunication` instance, returning the message stream of each
call. -/
def send_activations_run (st : CommState) : List (List Tensor) → List (List Msg) × CommState
  | [] => ([], st)
  | o :: os =>
    let r := send_activations st o
    let rs := send_activations_run r.2 os
    (r.1 :: rs.1, rs.2)

theorem send_activations_sent (st : CommState) (o : List Tensor) :
    (send_activations st o).2 = { st with sent_activation_meta := true } := rfl

theorem send_activations_run_after_meta (st : CommState)
    (h : st.sent_activation_meta = true) (os : List (List Tensor)) :
    send_activations_run st os
      = (os.map (fun o => o.map (fun t => Msg.payload (metaOf t))),
         if os.isEmpty then st else { st with sent_activation_meta := true }) := by
  induction os generalizing st with
  | nil => simp [send_activations_run]
  | cons o os ih =>
    simp only [send_activations_run, send_activations, h, if_true, List.nil_append,
      List.map_cons, List.isEmpty_cons]
    rw [ih { st with sent_activation_meta := true } rfl]
    cases os <;> simp

/-- Claim C7: metadata is sent exactly once per transport lifetime.
From a fresh transport state, the first `send_activations` call
transmits the metadata envelope before its payload, and every later
call of the run transmits only payload messages, whatever tuple each
call sends; symmetrically, `recv_activations` allocates the persistent
receive buffer only when `activation_recv_buf` is still `none`, and
once it is `some buf` every later call leaves it untouched. -/
theorem C7_metadata_once (st : CommState) (h : st.sent_activation_meta = false)
    (o : List Tensor) (os : List (List Tensor)) :
    (send_activations_run st (o :: os)).1
      = (send_activation_meta o ++ o.map (fun t => Msg.payload (metaOf t)))
        :: os.map (fun oi => oi.map (fun t => Msg.payload (metaOf t)))
    ∧ (∀ (st2 : CommState) (buf : List TensorMeta) (w : List Msg) out,
        st2.activation_recv_buf = some buf →
        recv_activations st2 w = some out →
        out.2.1 = st2)
    ∧ (∀ (st2 : CommState) (w : List Msg) out,
        st2.activation_recv_buf = none →
        recv_activations st2 w = some out →
        ∃ buf rest, create_receive_buffer w = some (buf, rest)
          ∧ out.2.1 = { st2 with activation_recv_buf := some buf }) := by
  refine ⟨?_, ?_, ?_⟩
  · simp only [send_activations_run, send_activations, h, Bool.false_eq_true, if_false]
    rw [send_activations_run_after_meta _ rfl]
  · intro st2 buf w out hbuf hrecv
    simp only [recv_activations, hbuf, Option.bind_eq_bind, Option.some_bind] at hrecv
    rcases hpl : recv_payloads buf w with _ | p
    · rw [hpl] at hrecv; exact absurd hrecv (by simp)
    · rw [hpl] at hrecv
      simp only [Option.some_bind, Option.some.injEq] at hrecv
      rw [← hrecv]
      simp only [← hbuf]
  · intro st2 w out hbuf hrecv
    simp only [recv_activations, hbuf, Option.bind_eq_bind] at hrecv
    rcases hcr : create_receive_buffer w with _ | ⟨buf, rest⟩
    · rw [hcr] at hrecv; exact absurd hrecv (by simp)
    · rw [hcr] at hrecv
      refine ⟨buf, rest, rfl, ?_⟩
      simp only [Option.some_bind] at hrecv
      rcases hpl : recv_payloads buf rest with _ | p
      · rw [hpl] at hrecv; exact absurd hrecv (by simp)
      · rw [hpl] at hrecv
        simp only [Option.some_bind, Option.some.injEq] at hrecv
        rw [← hrecv]

/-- Witness for C7 with a two-call send run and both receive cases. -/
theorem C7_metadata_once_witness :
    initCommState.sent_activation_meta = false
    ∧ (send_activations_run initCommState
          [[⟨[2], .f32, true, none⟩], [⟨[2], .f32, true, none⟩]]).1
      = (send_activation_meta [⟨[2], .f32, true, none⟩]
          ++ [Msg.payload ⟨[2], .f32, true⟩])
        :: [[Msg.payload ⟨[2], .f32, true⟩]] :=
  ⟨rfl, by
    have h := (C7_metadata_once initCommState rfl [⟨[2], .f32, true, none⟩]
      [[⟨[2], .f32, true, none⟩]]).1
    simpa [metaOf] using h⟩

/-! ## Stage runtime (`PipelineExecution`, pipeline.py lines 106-281)

Only `_prepare_input` / `_prepare_inputs` / `load_microbatch` are needed
by the claims.  Python data (nested dicts/tuples/tensors) is modelled by
`PyData`; a tensor carries an on-device flag in addition to its
attributes. -/

/-- A Python value as handled by `_prepare_input`: a `Mapping`, a
`tuple`/`list`, a `torch.Tensor` (with an on-accelerator flag), or
anything else (passed through unchanged). -/
inductive PyData where
  | tensor (t : Tensor) (onDevice : Bool)
  | dict (items : List (String × PyData))
  | tup (items : List PyData)
  | other

mutual

/-- `PipelineExecution._prepare_input` (pipeline.py lines 154-168):
recurse through mappings and tuples/lists; a tensor is
`clone().detach().to(device)` (a fresh on-device copy with no `.grad`)
and its `requires_grad` is set to `is_floating_point()`; anything else
is returned unchanged. -/
def prepare_input : PyData → PyData
  | .dict kvs => .dict (prepare_input_kvs kvs)
  | .tup xs => .tup (prepare_input_items xs)
  | .tensor t _ =>
    .tensor { shape := t.shape, dtype := t.dtype,
              requires_grad := isFloatingPoint t.dtype, grad := none } true
  | .other => .other

/-- `_prepare_input` mapped over the values of a `Mapping`. -/
def prepare_input_kvs : List (String × PyData) → List (String × PyData)
  | [] => []
  | (k, v) :: rest => (k, prepare_input v) :: prepare_input_kvs rest

/-- `_prepare_input` mapped over a `tuple`/`list`. -/
def prepare_input_items : List PyData → List PyData
  | [] => []
  | x :: xs => prepare_input x :: prepare_input_items xs

end

/-- `PipelineExecution._prepare_inputs` (pipeline.py lines 171-178): the
tuple of the prepared values of the batch dict. -/
def prepare_inputs (inputs : List (String × PyData)) : List PyData :=
  inputs.map (fun kv => prepare_input kv.2)

/-- The state touched by `load_microbatch`: the owned layer indices and
layer count (for `is_first_stage` / `is_last_stage`), the dataloader
iterator (remaining batches) and the `pipe_buffers["inputs"]` slots. -/
structure StageState where
  layer_indices : List Nat
  total_num_layers : Nat
  data_iterator : List (List (String × PyData))
  inputs : List (Option (List PyData))

/-- `OobleckPipeline.is_first_stage` (pipeline.py lines 581-582):
`model_layers[0].index == 0`. -/
def is_first_stage (st : StageState) : Bool :=
  st.layer_indices.head? == some 0

/-- `OobleckPipeline.is_last_stage` (pipeline.py lines 584-585):
`model_layers[-1].index == total_num_layers - 1`. -/
def is_last_stage (st : StageState) : Bool :=
  st.layer_indices.getLast? == some (st.total_num_layers - 1)

/-- `PipelineExecution.load_microbatch` (pipeline.py lines 180-191):
assert the stage is first or last (`none` models the failed assertion);
at the first stage pull the next batch from the dataloader iterator
(`none` models an uncaught `StopIteration` on an exhausted iterator),
prepare it and store it in `inputs[buffer_id]`.  The source has no
branch for a last-but-not-first stage: control falls through and the
state is returned unchanged. -/
def load_microbatch (st : StageState) (buffer_id : Nat) : Option StageState :=
  if ¬(is_first_stage st || is_last_stage st) then
    none
  else if is_first_stage st then
    match st.data_iterator with
    | [] => none
    | batch :: rest =>
      some { st with
              data_iterator := rest,
              inputs := st.inputs.set buffer_id (some (prepare_inputs batch)) }
  else
    some st

/-- A state at the last stage only (layers `[1]` of 2, so not the first
stage), with one pending batch and two empty buffer slots. -/
def lastStageState : StageState :=
  { layer_indices := [1], total_num_layers := 2,
    data_iterator := [[("labels", PyData.tensor ⟨[4], .i64, false, none⟩ false)]],
    inputs := [none, none] }

/-- Claim C9 (divergence evidence): at a last-but-not-first stage,
`load_microbatch` passes its assertion but performs no action at all —
it consumes nothing from any channel and stores nothing — contradicting
the claim that it pulls from the labels channel and stores the result.
The assertion and first-stage parts of the claim do hold (second and
third conjuncts: a middle stage fails the assertion; a first stage
consumes one batch and stores the prepared tensors, with
`requires_grad` set exactly on floating-point tensors). -/
theorem C9_load_microbatch_last_stage_noop :
    load_microbatch lastStageState 0 = some lastStageState
    ∧ is_last_stage lastStageState = true
    ∧ is_first_stage lastStageState = false
    ∧ load_microbatch
        { lastStageState with
          layer_indices := [1]
          total_num_layers := 3 } 0
        = none
    ∧ load_microbatch
        { lastStageState with
          layer_indices := [0]
          total_num_layers := 3
          data_iterator := [[("input_ids", PyData.tensor ⟨[4], .i64, true, none⟩ false),
                             ("pixel_values", PyData.tensor ⟨[4], .f32, false, none⟩ false)]] } 0
        = some
          { lastStageState with
            layer_indices := [0]
            total_num_layers := 3
            data_iterator := []
            inputs := [some [PyData.tensor ⟨[4], .i64, false, none⟩ true,
                             PyData.tensor ⟨[4], .f32, true, none⟩ true], none] } := by
  refine ⟨rfl, rfl, rfl, rfl, rfl⟩

/-! ## `OobleckPipeline.__init__` (pipeline.py lines 477-546) -/

/-- `OobleckPipeline.__init__` up to the `my_rank` assertion, modelled
on the attribute store for `my_rank`.  The statement
`self.my_rank: dist.get_rank()` is a PEP 526 variable annotation, not an
assignment; it binds nothing (and under
`from __future__ import annotations`, line 1 of the file, the annotation
expression `dist.get_rank()` is not even evaluated).  The attribute
therefore stays unbound (`none`), and the immediately following read of
`self.my_rank` in `assert self.my_rank in self.ranks` raises
`AttributeError`.  The code after that read (stage search, schedule and
buffer construction) is reproduced for the hypothetical bound case but
is unreachable. -/
def oobleck_pipeline_init (dist_initialized : Bool) (ranks : List Int)
    (num_stages num_gpus_per_node : Nat) : Except String Unit :=
  if ¬dist_initialized then
    .error "torch.distributed is not intialized."
  else if ranks.length ≠ num_stages * num_gpus_per_node then
    .error "Number of ranks must be equal to number of stages * num_gpus_per_node."
  else
    let my_rank : Option Int := none
    match my_rank with
    | none => .error "AttributeError: object has no attribute my_rank"
    | some r =>
      if ¬ranks.contains r then
        .error "My rank is not in the ranks list."
      else
        .ok ()

/-- Claim C10: `self.my_rank: dist.get_rank()` is a type annotation, not
an assignment, so `my_rank` stays unbound; the immediately following
read of `self.my_rank` in the assertion fails, and for every argument
combination the construction of `OobleckPipeline` never completes
normally. -/
theorem C10_init_never_completes (dist_initialized : Bool) (ranks : List Int)
    (num_stages num_gpus_per_node : Nat) :
    ∃ msg, oobleck_pipeline_init dist_initialized ranks num_stages num_gpus_per_node
      = .error msg := by
  unfold oobleck_pipeline_init
  split
  · exact ⟨_, rfl⟩
  · split
    · exact ⟨_, rfl⟩
    · exact ⟨_, rfl⟩

/-! ## Pipeline schedule (`OobleckPipelineSchedule`, pipeline.py lines 33-103)

`OobleckPipelineSchedule` extends `deepspeed.runtime.pipe.schedule.TrainSchedule`
and overrides `steps` and `num_pipe_buffers`.  The inherited helpers
(`_step_to_micro_batch` with its four id functions, `_valid_micro_batch`,
`_valid_stage`, `_buffer_idx`, `prev_stage`/`next_stage`) are not among
the embedded source files; they are modelled from the spec's §4.1
description of the standard 1F1B interleaving, following the standard
`TrainSchedule` formulas.  Python `//` and `%` on an `int` with positive
divisor are `Int.ediv` / `Int.emod`.  A schedule is a pure function of
`(micro_batches M, stages S, stage_id s)`. -/

/-- `_valid_micro_batch` (base `PipeSchedule`): `0 <= micro_batch_id < micro_batches`. -/
def valid_micro_batch (M : Nat) (mb : Int) : Prop :=
  0 ≤ mb ∧ mb < (M : Int)

instance (M : Nat) (mb : Int) : Decidable (valid_micro_batch M mb) :=
  inferInstanceAs (Decidable (_ ∧ _))

/-- `_valid_stage` (base `PipeSchedule`): `0 <= stage_id < stages`. -/
def valid_stage (S : Nat) (stage : Int) : Prop :=
  0 ≤ stage ∧ stage < (S : Int)

instance (S : Nat) (stage : Int) : Decidable (valid_stage S stage) :=
  inferInstanceAs (Decidable (_ ∧ _))

/-- Modelled from the spec: `TrainSchedule._even_step_forward_id`. -/
def even_step_forward_id (s step : Nat) : Int :=
  (step : Int) / 2 - (s : Int) / 2

/-- Modelled from the spec: `TrainSchedule._odd_step_forward_id`. -/
def odd_step_forward_id (s step : Nat) : Int :=
  ((step : Int) - 1) / 2 - (s : Int) / 2

/-- Modelled from the spec: `TrainSchedule._even_step_backward_id`. -/
def even_step_backward_id (S s step : Nat) : Int :=
  (step : Int) / 2 - (S : Int) + ((s : Int) + 1) / 2

/-- Modelled from the spec: `TrainSchedule._odd_step_backward_id`. -/
def odd_step_backward_id (S s step : Nat) : Int :=
  ((step : Int) - 1) / 2 - (S : Int) + 1 + (s : Int) / 2

/-- Modelled from the spec: `TrainSchedule._step_to_micro_batch`, the
standard 1F1B mapping from a step id to `(micro_batch_id, is_forward)`:
a step is a forward half-step iff its parity equals the stage's
parity. -/
def step_to_micro_batch (S s step : Nat) : Int × Bool :=
  if step % 2 = 0 ∧ s % 2 = 0 then
    (even_step_forward_id s step, true)
  else if step % 2 = 1 ∧ s % 2 = 1 then
    (odd_step_forward_id s step, true)
  else if step % 2 = 0 ∧ s % 2 = 1 then
    (even_step_backward_id S s step, false)
  else
    (odd_step_backward_id S s step, false)

/-- `OobleckPipelineSchedule.num_pipe_buffers` (pipeline.py lines
95-103): `max(2, min(stages - stage_id, micro_batches))`. -/
def num_pipe_buffers (M S s : Nat) : Nat :=
  max 2 (min (S - s) M)

/-- `_buffer_idx` (base `PipeSchedule`, modelled from the spec's
`buf(mb) = mb mod num_pipe_buffers`): `micro_batch_id % num_pipe_buffers()`
for a valid micro-batch id. -/
def buffer_idx (M S s : Nat) (mb : Int) : Int :=
  mb % (num_pipe_buffers M S s)

/-- The `prev_micro_batch_id` loop variable of `steps` at the start of
iteration `step`: `-1` on the first iteration, otherwise the
micro-batch id of the previous step. -/
def prev_micro_batch_id (S s step : Nat) : Int :=
  match step with
  | 0 => -1
  | t + 1 => (step_to_micro_batch S s t).1

/-- The instruction set emitted by `OobleckPipelineSchedule.steps`
(each carries its `buffer_id`). -/
inductive Instr where
  | SendGrad (buffer_id : Int)
  | RecvActivation (buffer_id : Int)
  | RecvGrad (buffer_id : Int)
  | SendActivation (buffer_id : Int)
  | LoadMicroBatch (buffer_id : Int)
  | ForwardPass (buffer_id : Int)
  | BackwardPass (buffer_id : Int)
deriving DecidableEq, Repr

/-- The body of one iteration of `OobleckPipelineSchedule.steps`
(pipeline.py lines 46-93): the `cmds` list yielded at `step`, built in
source order — activation/gradient exchange, first/last-stage load,
then computation.  `prev_stage` is `stage_id - 1` and `next_stage` is
`stage_id + 1`. -/
def step_cmds (M S s step : Nat) : List Instr :=
  let mb := (step_to_micro_batch S s step).1
  let is_forward := (step_to_micro_batch S s step).2
  let prev_mb := prev_micro_batch_id S s step
  let prev_buffer := buffer_idx M S s prev_mb
  let curr_buffer := buffer_idx M S s mb
  (if is_forward then
      (if valid_micro_batch M prev_mb ∧ valid_stage S ((s : Int) - 1) then
        [Instr.SendGrad prev_buffer] else [])
      ++ (if valid_micro_batch M mb ∧ valid_stage S ((s : Int) - 1) then
        [Instr.RecvActivation curr_buffer] else [])
    else
      (if valid_micro_batch M mb ∧ valid_stage S ((s : Int) + 1) then
        [Instr.RecvGrad curr_buffer] else [])
      ++ (if valid_micro_batch M prev_mb ∧ valid_stage S ((s : Int) + 1) then
        [Instr.SendActivation prev_buffer] else []))
  ++ (if (s = 0 ∨ s = S - 1) ∧ is_forward = true ∧ valid_micro_batch M mb then
      [Instr.LoadMicroBatch curr_buffer] else [])
  ++ (if valid_micro_batch M mb then
      [if is_forward then Instr.ForwardPass curr_buffer else Instr.BackwardPass curr_buffer]
    else [])

/-- `total_steps = 2 * (micro_batches + stages - 1)` (pipeline.py line 45). -/
def total_steps (M S : Nat) : Nat :=
  2 * (M + S - 1)

/-- `OobleckPipelineSchedule.steps`: the full instruction stream, one
`cmds` list per step. -/
def steps (M S s : Nat) : List (List Instr) :=
  (List.range (total_steps M S)).map (step_cmds M S s)

/-- Recognizers for the instruction tags. -/
def isForwardPass : Instr → Bool
  | .ForwardPass _ => true
  | _ => false

def isBackwardPass : Instr → Bool
  | .BackwardPass _ => true
  | _ => false

def isSendGrad : Instr → Bool
  | .SendGrad _ => true
  | _ => false

def isRecvActivation : Instr → Bool
  | .RecvActivation _ => true
  | _ => false

def isSendActivation : Instr → Bool
  | .SendActivation _ => true
  | _ => false

def isRecvGrad : Instr → Bool
  | .RecvGrad _ => true
  | _ => false

/-- The `buffer_id` argument of any instruction. -/
def bufferIdOf : Instr → Int
  | .SendGrad b => b
  | .RecvActivation b => b
  | .RecvGrad b => b
  | .SendActivation b => b
  | .LoadMicroBatch b => b
  | .ForwardPass b => b
  | .BackwardPass b => b

/-- The forward half-step of micro-batch `i` on stage `s` is step
`2*i + s`. -/
theorem stmb_fwd (S s i : Nat) :
    step_to_micro_batch S s (2 * i + s) = ((i : Int), true) := by
  unfold step_to_micro_batch even_step_forward_id odd_step_forward_id
    even_step_backward_id odd_step_backward_id
  split_ifs with h1 h2 h3
  · simp only [Prod.mk.injEq]
    exact ⟨by omega, trivial⟩
  · simp only [Prod.mk.injEq]
    exact ⟨by omega, trivial⟩
  · exfalso; omega
  · exfalso; omega

/-- The backward half-step of micro-batch `i` on stage `s` is step
`2*i + 2*S - s - 1`. -/
theorem stmb_bwd (S s i : Nat) (hs : s < S) :
    step_to_micro_batch S s (2 * i + 2 * S - s - 1) = ((i : Int), false) := by
  unfold step_to_micro_batch even_step_forward_id odd_step_forward_id
    even_step_backward_id odd_step_backward_id
  split_ifs with h1 h2 h3
  · exfalso; omega
  · exfalso; omega
  · simp only [Prod.mk.injEq]
    exact ⟨by omega, trivial⟩
  · simp only [Prod.mk.injEq]
    exact ⟨by omega, trivial⟩

/-- A step is a valid forward half-step iff it is `2*i + s` for a valid
micro-batch `i`. -/
theorem fwd_char (M S s t : Nat) :
    ((step_to_micro_batch S s t).2 = true
        ∧ valid_micro_batch M (step_to_micro_batch S s t).1)
      ↔ ∃ i : Nat, i < M ∧ t = 2 * i + s := by
  constructor
  · rintro ⟨hf, hv⟩
    unfold step_to_micro_batch even_step_forward_id odd_step_forward_id
      even_step_backward_id odd_step_backward_id at hf hv
    unfold valid_micro_batch at hv
    split_ifs at hf hv with h1 h2 h3
    · exact ⟨((t : Int) / 2 - (s : Int) / 2).toNat, by omega, by omega⟩
    · exact ⟨(((t : Int) - 1) / 2 - (s : Int) / 2).toNat, by omega, by omega⟩
  · rintro ⟨i, hi, rfl⟩
    rw [stmb_fwd]
    exact ⟨rfl, ⟨by omega, by omega⟩⟩

/-- A step is a valid backward half-step iff it is `2*i + 2*S - s - 1`
for a valid micro-batch `i`. -/
theorem bwd_char (M S s t : Nat) (hs : s < S) :
    ((step_to_micro_batch S s t).2 = false
        ∧ valid_micro_batch M (step_to_micro_batch S s t).1)
      ↔ ∃ i : Nat, i < M ∧ t = 2 * i + 2 * S - s - 1 := by
  constructor
  · rintro ⟨hf, hv⟩
    unfold step_to_micro_batch even_step_forward_id odd_step_forward_id
      even_step_backward_id odd_step_backward_id at hf hv
    unfold valid_micro_batch at hv
    split_ifs at hf hv with h1 h2 h3
    · exact ⟨((t : Int) / 2 - (S : Int) + ((s : Int) + 1) / 2).toNat,
        by omega, by omega⟩
    · exact ⟨(((t : Int) - 1) / 2 - (S : Int) + 1 + (s : Int) / 2).toNat,
        by omega, by omega⟩
  · rintro ⟨i, hi, rfl⟩
    rw [stmb_bwd S s i hs]
    exact ⟨rfl, ⟨by omega, by omega⟩⟩

/-- A step group contains one `ForwardPass` iff the step is a valid
forward half-step, and none otherwise. -/
theorem countP_fwd_step (M S s t : Nat) :
    (step_cmds M S s t).countP isForwardPass
      = if (step_to_micro_batch S s t).2 = true
            ∧ valid_micro_batch M (step_to_micro_batch S s t).1 then 1 else 0 := by
  simp only [step_cmds]
  cases hf : (step_to_micro_batch S s t).2 <;>
    simp only [Bool.false_eq_true, if_true, if_false, List.countP_append] <;>
      split_ifs <;>
        simp_all [isForwardPass, List.countP_cons, List.countP_nil]

/-- A step group contains one `BackwardPass` iff the step is a valid
backward half-step, and none otherwise. -/
theorem countP_bwd_step (M S s t : Nat) :
    (step_cmds M S s t).countP isBackwardPass
      = if (step_to_micro_batch S s t).2 = false
            ∧ valid_micro_batch M (step_to_micro_batch S s t).1 then 1 else 0 := by
  simp only [step_cmds]
  cases hf : (step_to_micro_batch S s t).2 <;>
    simp only [Bool.false_eq_true, if_true, if_false, List.countP_append] <;>
      split_ifs <;>
        simp_all [isBackwardPass, List.countP_cons, List.countP_nil]

/-- Summing an indicator over `List.range` counts the `Finset.range`
filter. -/
theorem list_sum_indicator (P : Nat → Prop) [DecidablePred P] (n : Nat) :
    ((List.range n).map (fun t => if P t then 1 else 0)).sum
      = ((Finset.range n).filter P).card := by
  induction n with
  | zero => rfl
  | succ n ih =>
    rw [List.range_succ, List.map_append, List.sum_append, Finset.range_succ,
      Finset.filter_insert]
    by_cases h : P n
    · rw [if_pos h, Finset.card_insert_of_not_mem (by simp)]
      simp [ih, h]
    · rw [if_neg h]
      simp [ih, h]

/-- The instruction count of the flattened stream, one step at a time. -/
theorem countP_steps (M S s : Nat) (p : Instr → Bool) :
    (steps M S s).flatten.countP p
      = ((List.range (total_steps M S)).map
          (fun t => (step_cmds M S s t).countP p)).sum := by
  rw [steps, List.countP_flatten, List.map_map]
  rfl

/-- There are exactly `M` valid forward half-steps among the
`total_steps`. -/
theorem card_fwd_filter (M S s : Nat) (hs : s < S) :
    ((Finset.range (total_steps M S)).filter
        (fun t => (step_to_micro_batch S s t).2 = true
          ∧ valid_micro_batch M (step_to_micro_batch S s t).1)).card = M := by
  have himg : (Finset.range (total_steps M S)).filter
      (fun t => (step_to_micro_batch S s t).2 = true
        ∧ valid_micro_batch M (step_to_micro_batch S s t).1)
      = (Finset.range M).image (fun i => 2 * i + s) := by
    ext t
    simp only [Finset.mem_filter, Finset.mem_image, Finset.mem_range]
    constructor
    · rintro ⟨htT, hP⟩
      obtain ⟨i, hi, rfl⟩ := (fwd_char M S s t).mp hP
      exact ⟨i, hi, rfl⟩
    · rintro ⟨i, hi, rfl⟩
      refine ⟨?_, (fwd_char M S s _).mpr ⟨i, hi, rfl⟩⟩
      unfold total_steps
      omega
  rw [himg, Finset.card_image_of_injective _ (fun a b h => by omega), Finset.card_range]

/-- There are exactly `M` valid backward half-steps among the
`total_steps`. -/
theorem card_bwd_filter (M S s : Nat) (hs : s < S) :
    ((Finset.range (total_steps M S)).filter
        (fun t => (step_to_micro_batch S s t).2 = false
          ∧ valid_micro_batch M (step_to_micro_batch S s t).1)).card = M := by
  have himg : (Finset.range (total_steps M S)).filter
      (fun t => (step_to_micro_batch S s t).2 = false
        ∧ valid_micro_batch M (step_to_micro_batch S s t).1)
      = (Finset.range M).image (fun i => 2 * i + 2 * S - s - 1) := by
    ext t
    simp only [Finset.mem_filter, Finset.mem_image, Finset.mem_range]
    constructor
    · rintro ⟨htT, hP⟩
      obtain ⟨i, hi, rfl⟩ := (bwd_char M S s t hs).mp hP
      exact ⟨i, hi, rfl⟩
    · rintro ⟨i, hi, rfl⟩
      refine ⟨?_, (bwd_char M S s _ hs).mpr ⟨i, hi, rfl⟩⟩
      unfold total_steps
      omega
  rw [himg, Finset.card_image_of_injective _ (fun a b h => by omega), Finset.card_range]

/-- The stream contains exactly `M` `ForwardPass` instructions. -/
theorem count_forward (M S s : Nat) (hs : s < S) :
    (steps M S s).flatten.countP isForwardPass = M := by
  rw [countP_steps]
  have hcongr : (List.range (total_steps M S)).map
      (fun t => (step_cmds M S s t).countP isForwardPass)
      = (List.range (total_steps M S)).map
        (fun t => if (step_to_micro_batch S s t).2 = true
            ∧ valid_micro_batch M (step_to_micro_batch S s t).1 then 1 else 0) := by
    exact List.map_congr_left (fun t _ => countP_fwd_step M S s t)
  rw [hcongr, list_sum_indicator, card_fwd_filter M S s hs]

/-- The stream contains exactly `M` `BackwardPass` instructions. -/
theorem count_backward (M S s : Nat) (hs : s < S) :
    (steps M S s).flatten.countP isBackwardPass = M := by
  rw [countP_steps]
  have hcongr : (List.range (total_steps M S)).map
      (fun t => (step_cmds M S s t).countP isBackwardPass)
      = (List.range (total_steps M S)).map
        (fun t => if (step_to_micro_batch S s t).2 = false
            ∧ valid_micro_batch M (step_to_micro_batch S s t).1 then 1 else 0) := by
    exact List.map_congr_left (fun t _ => countP_bwd_step M S s t)
  rw [hcongr, list_sum_indicator, card_bwd_filter M S s hs]

/-- The step group of a valid forward half-step for micro-batch `i`
contains `ForwardPass` on buffer `buf(i)`. -/
theorem fwd_mem (M S s t i : Nat) (hi : i < M)
    (h : step_to_micro_batch S s t = ((i : Int), true)) :
    Instr.ForwardPass (buffer_idx M S s (i : Int)) ∈ step_cmds M S s t := by
  have hv : valid_micro_batch M ((i : Nat) : Int) := ⟨by omega, by omega⟩
  simp [step_cmds, h, hv]

/-- The step group of a valid backward half-step for micro-batch `i`
contains `BackwardPass` on buffer `buf(i)`. -/
theorem bwd_mem (M S s t i : Nat) (hi : i < M)
    (h : step_to_micro_batch S s t = ((i : Int), false)) :
    Instr.BackwardPass (buffer_idx M S s (i : Int)) ∈ step_cmds M S s t := by
  have hv : valid_micro_batch M ((i : Nat) : Int) := ⟨by omega, by omega⟩
  simp [step_cmds, h, hv]

/-- Claim C1: for every `M ≥ 1`, `S ≥ 1` and stage `s ∈ [0, S)`, the
instruction stream produced by `OobleckPipelineSchedule.steps` consists
of exactly `2*(M+S-1)` step groups, contains exactly `M` `ForwardPass`
and exactly `M` `BackwardPass` instructions, and for every micro-batch
`i` the `ForwardPass` for `i` (at step `2*i+s`) precedes the
`BackwardPass` for `i` (at step `2*i+2*S-s-1`). -/
theorem C1_schedule_shape (M S s : Nat) (hM : 1 ≤ M) (hS : 1 ≤ S) (hs : s < S) :
    (steps M S s).length = 2 * (M + S - 1)
    ∧ (steps M S s).flatten.countP isForwardPass = M
    ∧ (steps M S s).flatten.countP isBackwardPass = M
    ∧ ∀ i, i < M →
        2 * i + s < 2 * i + 2 * S - s - 1
        ∧ 2 * i + 2 * S - s - 1 < (steps M S s).length
        ∧ (steps M S s).get? (2 * i + s) = some (step_cmds M S s (2 * i + s))
        ∧ (steps M S s).get? (2 * i + 2 * S - s - 1)
            = some (step_cmds M S s (2 * i + 2 * S - s - 1))
        ∧ step_to_micro_batch S s (2 * i + s) = ((i : Int), true)
        ∧ Instr.ForwardPass (buffer_idx M S s (i : Int)) ∈ step_cmds M S s (2 * i + s)
        ∧ step_to_micro_batch S s (2 * i + 2 * S - s - 1) = ((i : Int), false)
        ∧ Instr.BackwardPass (buffer_idx M S s (i : Int))
            ∈ step_cmds M S s (2 * i + 2 * S - s - 1) := by
  have hlen : (steps M S s).length = 2 * (M + S - 1) := by
    rw [steps, List.length_map, List.length_range, total_steps]
  refine ⟨hlen, count_forward M S s hs, count_backward M S s hs, ?_⟩
  intro i hi
  have htf : 2 * i + s < total_steps M S := by unfold total_steps; omega
  have htb : 2 * i + 2 * S - s - 1 < total_steps M S := by unfold total_steps; omega
  refine ⟨by omega, by rw [hlen]; unfold total_steps at htb; omega, ?_, ?_, ?_, ?_, ?_, ?_⟩
  · rw [steps, List.get?_map, List.get?_range htf]
    rfl
  · rw [steps, List.get?_map, List.get?_range htb]
    rfl
  · exact stmb_fwd S s i
  · exact fwd_mem M S s (2 * i + s) i hi (stmb_fwd S s i)
  · exact stmb_bwd S s i hs
  · exact bwd_mem M S s (2 * i + 2 * S - s - 1) i hi (stmb_bwd S s i hs)

/-- Witness for C1 on the smallest pipeline `M = 1, S = 1, s = 0`. -/
theorem C1_schedule_shape_witness :
    1 ≤ 1 ∧ 0 < 1
    ∧ (steps 1 1 0).length = 2 * (1 + 1 - 1)
    ∧ (steps 1 1 0).flatten.countP isForwardPass = 1 :=
  ⟨le_rfl, Nat.one_pos, (C1_schedule_shape 1 1 0 le_rfl le_rfl Nat.one_pos).1,
   (C1_schedule_shape 1 1 0 le_rfl le_rfl Nat.one_pos).2.1⟩

/-- If the previous stage does not exist, no step group contains a
`RecvActivation` or a `SendGrad`. -/
theorem no_prev_stage_instrs (M S s t : Nat) (hprev : ¬ valid_stage S ((s : Int) - 1)) :
    ∀ c ∈ step_cmds M S s t, isRecvActivation c = false ∧ isSendGrad c = false := by
  intro c hc
  cases c with
  | RecvActivation b =>
    exfalso
    apply hprev
    simp only [step_cmds] at hc
    split_ifs at hc <;> simp_all
  | SendGrad b =>
    exfalso
    apply hprev
    simp only [step_cmds] at hc
    split_ifs at hc <;> simp_all
  | RecvGrad b => exact ⟨rfl, rfl⟩
  | SendActivation b => exact ⟨rfl, rfl⟩
  | LoadMicroBatch b => exact ⟨rfl, rfl⟩
  | ForwardPass b => exact ⟨rfl, rfl⟩
  | BackwardPass b => exact ⟨rfl, rfl⟩

/-- If the next stage does not exist, no step group contains a
`SendActivation` or a `RecvGrad`. -/
theorem no_next_stage_instrs (M S s t : Nat) (hnext : ¬ valid_stage S ((s : Int) + 1)) :
    ∀ c ∈ step_cmds M S s t, isSendActivation c = false ∧ isRecvGrad c = false := by
  intro c hc
  cases c with
  | SendActivation b =>
    exfalso
    apply hnext
    simp only [step_cmds] at hc
    split_ifs at hc <;> simp_all
  | RecvGrad b =>
    exfalso
    apply hnext
    simp only [step_cmds] at hc
    split_ifs at hc <;> simp_all
  | RecvActivation b => exact ⟨rfl, rfl⟩
  | SendGrad b => exact ⟨rfl, rfl⟩
  | LoadMicroBatch b => exact ⟨rfl, rfl⟩
  | ForwardPass b => exact ⟨rfl, rfl⟩
  | BackwardPass b => exact ⟨rfl, rfl⟩

/-- Claim C2: for every `M ≥ 1`, `S ≥ 1` and stage `s ∈ [0, S)`, the
instruction stream of `OobleckPipelineSchedule.steps` never contains a
`RecvActivation` or `SendGrad` instruction when `s = 0`, and never
contains a `SendActivation` or `RecvGrad` instruction when
`s = S - 1`. -/
theorem C2_boundary_stages (M S s : Nat) (hs : s < S) :
    (s = 0 → ∀ c ∈ (steps M S s).flatten,
        isRecvActivation c = false ∧ isSendGrad c = false)
    ∧ (s = S - 1 → ∀ c ∈ (steps M S s).flatten,
        isSendActivation c = false ∧ isRecvGrad c = false) := by
  constructor
  · rintro rfl c hcf
    obtain ⟨l, hl, hcl⟩ := List.mem_flatten.mp hcf
    obtain ⟨t, ht, rfl⟩ := List.mem_map.mp hl
    refine no_prev_stage_instrs M S 0 t ?_ c hcl
    unfold valid_stage
    omega
  · rintro rfl c hcf
    obtain ⟨l, hl, hcl⟩ := List.mem_flatten.mp hcf
    obtain ⟨t, ht, rfl⟩ := List.mem_map.mp hl
    refine no_next_stage_instrs M S (S - 1) t ?_ c hcl
    unfold valid_stage
    omega

/-- Witness for C2 on a two-stage pipeline: the first stage never
receives activations nor sends gradients. -/
theorem C2_boundary_stages_witness :
    0 < 2
    ∧ (∀ c ∈ (steps 2 2 0).flatten,
        isRecvActivation c = false ∧ isSendGrad c = false) :=
  ⟨by decide, (C2_boundary_stages 2 2 0 (by decide)).1 rfl⟩

theorem mem_ite_singleton {α : Type} {p : Prop} [Decidable p] {x c : α}
    (hc : c ∈ (if p then [x] else [])) : p ∧ c = x := by
  split_ifs at hc with h
  · exact ⟨h, List.mem_singleton.mp hc⟩
  · exact absurd hc (List.not_mem_nil c)

/-- Every instruction of a step group addresses the buffer of some valid
micro-batch. -/
theorem buffer_of_mem (M S s t : Nat) (c : Instr) (hc : c ∈ step_cmds M S s t) :
    ∃ mb : Int, valid_micro_batch M mb ∧ bufferIdOf c = buffer_idx M S s mb := by
  simp only [step_cmds] at hc
  rcases List.mem_append.mp hc with h12 | h3
  · rcases List.mem_append.mp h12 with h1 | h2
    · split at h1 <;>
        rcases List.mem_append.mp h1 with h | h <;>
          obtain ⟨hcond, rfl⟩ := mem_ite_singleton h <;>
            first
              | exact ⟨prev_micro_batch_id S s t, hcond.1, rfl⟩
              | exact ⟨(step_to_micro_batch S s t).1, hcond.1, rfl⟩
    · obtain ⟨hcond, rfl⟩ := mem_ite_singleton h2
      exact ⟨(step_to_micro_batch S s t).1, hcond.2.2, rfl⟩
  · obtain ⟨hcond, rfl⟩ := mem_ite_singleton h3
    refine ⟨(step_to_micro_batch S s t).1, hcond, ?_⟩
    cases (step_to_micro_batch S s t).2 <;> rfl

/-- The distinct buffer ids appearing in the instruction stream of a
stage. -/
def used_buffer_ids (M S s : Nat) : Finset Int :=
  ((steps M S s).flatten.map bufferIdOf).toFinset

/-- The buffer ids used are exactly the images `buf(i)` of the valid
micro-batches. -/
theorem used_buffer_ids_eq (M S s : Nat) (hs : s < S) :
    used_buffer_ids M S s
      = (Finset.range M).image (fun i : Nat => buffer_idx M S s (i : Int)) := by
  ext x
  simp only [used_buffer_ids, List.mem_toFinset, List.mem_map, Finset.mem_image,
    Finset.mem_range]
  constructor
  · rintro ⟨c, hcf, rfl⟩
    obtain ⟨l, hl, hcl⟩ := List.mem_flatten.mp hcf
    obtain ⟨t, ht, rfl⟩ := List.mem_map.mp hl
    obtain ⟨mb, hv, hb⟩ := buffer_of_mem M S s t c hcl
    unfold valid_micro_batch at hv
    refine ⟨mb.toNat, by omega, ?_⟩
    rw [hb]
    congr 1
    omega
  · rintro ⟨i, hi, rfl⟩
    refine ⟨Instr.ForwardPass (buffer_idx M S s (i : Int)), ?_, rfl⟩
    refine List.mem_flatten.mpr
      ⟨step_cmds M S s (2 * i + s), ?_, fwd_mem M S s _ i hi (stmb_fwd S s i)⟩
    refine List.mem_map.mpr ⟨2 * i + s, List.mem_range.mpr ?_, rfl⟩
    unfold total_steps
    omega

/-- The residues `i % B` of `i < M` form a set of size `min M B`. -/
theorem card_image_emod_range (M B : Nat) (hB : 1 ≤ B) :
    ((Finset.range M).image (fun i : Nat => (i : Int) % (B : Int))).card = min M B := by
  rcases le_or_lt M B with hMB | hBM
  · rw [min_eq_left hMB]
    have hinj : Set.InjOn (fun i : Nat => (i : Int) % (B : Int)) (Finset.range M) := by
      intro a ha b hb hab
      simp only [Finset.coe_range, Set.mem_Iio] at ha hb
      have ha2 : ((a : Int)) % (B : Int) = (a : Int) :=
        Int.emod_eq_of_lt (by omega) (by omega)
      have hb2 : ((b : Int)) % (B : Int) = (b : Int) :=
        Int.emod_eq_of_lt (by omega) (by omega)
      simp only [ha2, hb2] at hab
      exact_mod_cast hab
    rw [Finset.card_image_of_injOn hinj, Finset.card_range]
  · rw [min_eq_right (le_of_lt hBM)]
    have himg : (Finset.range M).image (fun i : Nat => (i : Int) % (B : Int))
        = (Finset.range B).image (fun j : Nat => (j : Int)) := by
      ext x
      simp only [Finset.mem_image, Finset.mem_range]
      constructor
      · rintro ⟨i, hi, rfl⟩
        have h1 : 0 ≤ ((i : Int)) % (B : Int) := Int.emod_nonneg _ (by omega)
        have h2 : ((i : Int)) % (B : Int) < (B : Int) :=
          Int.emod_lt_of_pos _ (by omega)
        exact ⟨(((i : Int)) % (B : Int)).toNat, by omega, by omega⟩
      · rintro ⟨j, hj, rfl⟩
        exact ⟨j, by omega, Int.emod_eq_of_lt (by omega) (by omega)⟩
    have hinj : Set.InjOn (fun j : Nat => (j : Int)) (Finset.range B) := by
      intro a _ b _ hab
      exact Nat.cast_injective hab
    rw [himg, Finset.card_image_of_injOn hinj, Finset.card_range]

/-- Counterexample to claim C8 as stated: with `M = 1, S = 2, s = 0` the
stream uses a single distinct buffer id, while `num_pipe_buffers`
returns 2. -/
theorem C8_counterexample :
    ¬ ((used_buffer_ids 1 2 0).card = num_pipe_buffers 1 2 0) := by decide

/-- Claim C8, amended: the number of distinct buffer ids appearing in
the instructions emitted for stage `s` is `min M (max 2 (min (S-s) M))`,
i.e. exactly `num_pipe_buffers` whenever `M ≥ 2`, but only 1 (not 2)
when `M = 1`. -/
theorem C8_distinct_buffer_ids (M S s : Nat) (hM : 1 ≤ M) (hS : 1 ≤ S) (hs : s < S) :
    (used_buffer_ids M S s).card = min M (num_pipe_buffers M S s) := by
  rw [used_buffer_ids_eq M S s hs]
  have hB : 1 ≤ num_pipe_buffers M S s := by unfold num_pipe_buffers; omega
  simp only [buffer_idx]
  exact card_image_emod_range M (num_pipe_buffers M S s) hB

/-- Witness for the amended C8 at `M = 3, S = 3, s = 1`. -/
theorem C8_distinct_buffer_ids_witness :
    1 ≤ 3 ∧ 1 < 3
    ∧ (used_buffer_ids 3 3 1).card = min 3 (num_pipe_buffers 3 3 1) :=
  ⟨by decide, by decide, C8_distinct_buffer_ids 3 3 1 (by decide) (by decide) (by decide)⟩

end Oobleck
